import Mathlib

/-!
Verification of `botocore/configprovider.py`: the layered configuration
resolution mechanism (providers, provider chains, the chain factory and
the configuration value store).

The embedding follows the source closely:
* Python values are modelled by `PyVal`; the Python sentinel `None` is the
  constructor `PyVal.none`, which is also the "absent" signal the module
  uses throughout.
* Python dictionaries are modelled as association lists (`AList`);
  `alistGetOpt` is key lookup (`d[k]` together with `k in d`), `alistSet`
  is `d[k] = v`, `alistPop` is `d.pop(k, None)`.
* The duck-typed provider classes become the tagged variant `Provider`
  with a single `provide` method, exactly as the module's `BaseProvider`
  interface prescribes.
* A Python call that may raise is modelled in `Except PyErr`; the only
  raising position in this module is the user-supplied conversion
  function of a `ChainProvider`.
-/

namespace Botocore

/-- Python runtime values as used by this module: the `None` sentinel,
strings, integers and booleans. -/
inductive PyVal where
  | none
  | str (s : String)
  | int (n : Int)
  | bool (b : Bool)
deriving DecidableEq, Repr

/-- Python error values (exception messages). -/
abbrev PyErr := String

/-- A Python dictionary with string keys, as an association list. -/
abbrev AList (α : Type) := List (String × α)

/-- Key lookup in a dictionary: `some v` when the key is present bound to
`v`, `none` when the key is missing.  This combines Python's `k in d`
membership test with the subscript `d[k]`. -/
def alistGetOpt {α : Type} (k : String) : AList α → Option α
  | [] => Option.none
  | (k', v) :: rest => if k' = k then some v else alistGetOpt k rest

/-- Python `d.get(k)`: the bound value when present, the `None` sentinel
otherwise. -/
def alistGet (k : String) (d : AList PyVal) : PyVal :=
  (alistGetOpt k d).getD PyVal.none

/-- Python `d[k] = v`: rebind `k` in place when present, append otherwise. -/
def alistSet {α : Type} (k : String) (v : α) : AList α → AList α
  | [] => [(k, v)]
  | (k', v') :: rest =>
      if k' = k then (k, v) :: rest else (k', v') :: alistSet k v rest

/-- Python `d.pop(k, None)` restricted to its effect on the dictionary:
remove the binding of `k` when present, change nothing otherwise (a
dictionary binds each key at most once). -/
def alistPop {α : Type} (k : String) : AList α → AList α
  | [] => []
  | (k', v) :: rest =>
      if k' = k then alistPop k rest else (k', v) :: alistPop k rest

/-- The narrow session interface this module reads
(`session.instance_variables()` and `session.get_scoped_config()`). -/
structure Session where
  instance_variables : AList PyVal
  get_scoped_config : AList PyVal

/-- The `names` argument of `EnvironmentProvider`: one name or an ordered
list of names (`if not isinstance(names, list): names = [names]`). -/
inductive Names where
  | single (s : String)
  | list (l : List String)

/-- The normalisation the source performs at the top of
`EnvironmentProvider.provide`: a single name becomes a one-element list. -/
def Names.toList : Names → List String
  | .single s => [s]
  | .list l => l

/-- A conversion function handed to a `ChainProvider`; applying it to a
value may raise (e.g. `int('abc')`). -/
abbrev ConvFunc := PyVal → Except PyErr PyVal

/-- The provider classes of the module as a tagged variant:
`InstanceVarProvider`, `ScopedConfigProvider`, `EnvironmentProvider`,
`ConstantProvider` and `ChainProvider` (which owns a provider list and an
optional conversion function). -/
inductive Provider where
  | instanceVar (instance_var : String) (session : Session)
  | scopedConfig (config_var_name : String) (session : Session)
  | environment (names : Names) (env : AList PyVal)
  | constant (value : PyVal)
  | chain (providers : List Provider) (conversion_func : Option ConvFunc)

/-- Python `ChainProvider._convert_type`: apply the conversion function when one
was given, otherwise return the value unchanged. -/
def convert_type (conversion_func : Option ConvFunc) (value : PyVal) :
    Except PyErr PyVal :=
  match conversion_func with
  | some f => f value
  | Option.none => .ok value

/-- The loop body of `EnvironmentProvider.provide`: return `env[name]` for
the first listed name with `name in env`, and `None` when the list is
exhausted. -/
def envLookup : List String → AList PyVal → PyVal
  | [], _ => PyVal.none
  | n :: rest, env =>
      match alistGetOpt n env with
      | some v => v
      | Option.none => envLookup rest env

mutual

/-- Python `provide()` of each provider class.
* `InstanceVarProvider.provide`: `session.instance_variables().get(var)`.
* `ScopedConfigProvider.provide`: `session.get_scoped_config().get(var)`.
* `EnvironmentProvider.provide`: first listed name present in the
  environment mapping, by key membership.
* `ConstantProvider.provide`: the stored value.
* `ChainProvider.provide`: delegate to the loop over the provider list. -/
def Provider.provide : Provider → Except PyErr PyVal
  | .instanceVar v s => .ok (alistGet v s.instance_variables)
  | .scopedConfig v s => .ok (alistGet v s.get_scoped_config)
  | .environment names env => .ok (envLookup names.toList env)
  | .constant v => .ok v
  | .chain ps conv => Provider.provideList ps conv

/-- The loop of `ChainProvider.provide`: call each provider's `provide` in
order; the first value that `is not None` is passed to `_convert_type` and
returned; when the list is exhausted return `None`. -/
def Provider.provideList : List Provider → Option ConvFunc → Except PyErr PyVal
  | [], _ => .ok PyVal.none
  | p :: rest, conv =>
      match Provider.provide p with
      | .error e => .error e
      | .ok value =>
          if value = PyVal.none then Provider.provideList rest conv
          else convert_type conv value

end

/-- Python `ConfigChainFactory`: holds the session and the environment mapping
used to build the standard chains. -/
structure ConfigChainFactory where
  session : Session
  environ : AList PyVal

/-- Python `ConfigChainFactory.create_config_chain`: build the provider list in
the source's fixed order, appending a stage only when its parameter was
supplied.  In Python the `default` parameter defaults to `None`, so it is
a `PyVal` tested against the sentinel (`if default is not None`). -/
def ConfigChainFactory.create_config_chain (f : ConfigChainFactory)
    (instance_name : Option String) (env_var_names : Option Names)
    (config_property_name : Option String) (default : PyVal)
    (conversion_func : Option ConvFunc) : Provider :=
  let providers : List Provider := []
  let providers := match instance_name with
    | some n => providers ++ [Provider.instanceVar n f.session]
    | Option.none => providers
  let providers := match env_var_names with
    | some ns => providers ++ [Provider.environment ns f.environ]
    | Option.none => providers
  let providers := match config_property_name with
    | some c => providers ++ [Provider.scopedConfig c f.session]
    | Option.none => providers
  let providers :=
    if default ≠ PyVal.none then providers ++ [Provider.constant default]
    else providers
  Provider.chain providers conversion_func

/-- Python `ConfigValueStore`: the override map (`self._overrides`) and the
provider mapping (`self._mapping`). -/
structure ConfigValueStore where
  overrides : AList PyVal
  mapping : AList Provider

/-- Python `ConfigValueStore.get_config_variable`: the override wins whenever its
key is present; a name with no mapped provider yields `None`; otherwise
the mapped provider's `provide()` is returned. -/
def ConfigValueStore.get_config_variable (store : ConfigValueStore)
    (logical_name : String) : Except PyErr PyVal :=
  match alistGetOpt logical_name store.overrides with
  | some v => .ok v
  | Option.none =>
      match alistGetOpt logical_name store.mapping with
      | Option.none => .ok PyVal.none
      | some provider => provider.provide

/-- Python `ConfigValueStore.set_config_variable`:
`self._overrides[logical_name] = value`. -/
def ConfigValueStore.set_config_variable (store : ConfigValueStore)
    (logical_name : String) (value : PyVal) : ConfigValueStore :=
  { store with overrides := alistSet logical_name value store.overrides }

/-- Python `ConfigValueStore.clear_config_variable`:
`self._overrides.pop(logical_name, None)`. -/
def ConfigValueStore.clear_config_variable (store : ConfigValueStore)
    (logical_name : String) : ConfigValueStore :=
  { store with overrides := alistPop logical_name store.overrides }

/-- Python `ConfigValueStore.set_config_provider`:
`self._mapping[logical_name] = provider`. -/
def ConfigValueStore.set_config_provider (store : ConfigValueStore)
    (logical_name : String) (provider : Provider) : ConfigValueStore :=
  { store with mapping := alistSet logical_name provider store.mapping }

/-- Decimal digit accumulator for `pyStrToInt`: `some` of the number read
so far, `none` before any digit or once a non-digit is met. -/
def digitsToNat : List Char → Option Nat → Option Nat
  | [], acc => acc
  | c :: rest, acc =>
      if c.isDigit then
        digitsToNat rest (some ((acc.getD 0) * 10 + (c.toNat - 48)))
      else Option.none

/-- Parse a string as an optionally negated decimal integer, the accepted
form of the Python builtin `int` on strings. -/
def pyStrToInt (s : String) : Option Int :=
  match s.toList with
  | '-' :: rest => (digitsToNat rest Option.none).map (fun n => -(n : Int))
  | l => (digitsToNat l Option.none).map (fun n => (n : Int))

/-- Model of the Python builtin `int` as used as a `conversion_func` in
`create_botocore_default_config_mapping`: integer input is returned,
booleans coerce, a string parses as a (signed) decimal integer and raises
otherwise, `None` raises. -/
def pyIntFn : ConvFunc
  | .int n => .ok (.int n)
  | .bool b => .ok (.int (if b then 1 else 0))
  | .str s =>
      match pyStrToInt s with
      | some n => .ok (.int n)
      | Option.none => .error ("invalid literal for int: " ++ s)
  | .none => .error "int argument must not be None"

/-- Whether a provider is a `ConstantProvider`. -/
def isConstantProvider : Provider → Bool
  | .constant _ => true
  | _ => false

/-- The provider list a `ChainProvider` owns (`self._providers`); the
empty list on the leaf providers. -/
def chainProviders : Provider → List Provider
  | .chain ps _ => ps
  | _ => []

end Botocore

namespace Botocore

/-! ## Helper lemmas about the dictionary model -/

theorem alistGetOpt_set_self {α : Type} (k : String) (v : α) (d : AList α) :
    alistGetOpt k (alistSet k v d) = some v := by
  induction d with
  | nil => simp [alistSet, alistGetOpt]
  | cons hd tl ih =>
      obtain ⟨k', v'⟩ := hd
      by_cases hk : k' = k
      · subst hk
        simp [alistSet, alistGetOpt]
      · simp [alistSet, alistGetOpt, hk, ih]

theorem alistGetOpt_set_other {α : Type} (k other : String) (v : α)
    (d : AList α) (h : other ≠ k) :
    alistGetOpt other (alistSet k v d) = alistGetOpt other d := by
  induction d with
  | nil => simp [alistSet, alistGetOpt, Ne.symm h]
  | cons hd tl ih =>
      obtain ⟨k', v'⟩ := hd
      by_cases hk : k' = k
      · subst hk
        simp [alistSet, alistGetOpt, Ne.symm h]
      · simp [alistSet, alistGetOpt, hk, ih]

theorem alistGetOpt_pop_self {α : Type} (k : String) (d : AList α) :
    alistGetOpt k (alistPop k d) = Option.none := by
  induction d with
  | nil => simp [alistPop, alistGetOpt]
  | cons hd tl ih =>
      obtain ⟨k', v'⟩ := hd
      by_cases hk : k' = k
      · simpa [alistPop, hk] using ih
      · simpa [alistPop, alistGetOpt, hk] using ih

theorem alistGetOpt_pop_other {α : Type} (k other : String) (d : AList α)
    (h : other ≠ k) :
    alistGetOpt other (alistPop k d) = alistGetOpt other d := by
  induction d with
  | nil => simp [alistPop]
  | cons hd tl ih =>
      obtain ⟨k', v'⟩ := hd
      by_cases hk : k' = k
      · subst hk
        simp [alistPop, alistGetOpt, Ne.symm h, ih]
      · simp [alistPop, alistGetOpt, hk, ih]

theorem alistPop_of_absent {α : Type} (k : String) (d : AList α)
    (h : alistGetOpt k d = Option.none) : alistPop k d = d := by
  induction d with
  | nil => simp [alistPop]
  | cons hd tl ih =>
      obtain ⟨k', v'⟩ := hd
      by_cases hk : k' = k
      · simp [alistGetOpt, hk] at h
      · simp [alistGetOpt, hk] at h
        simp [alistPop, hk, ih h]

/-! ## Helper lemmas about provider chains -/

theorem provideList_append_absent (ps1 : List Provider)
    (h : ∀ q ∈ ps1, q.provide = .ok PyVal.none)
    (rest : List Provider) (conv : Option ConvFunc) :
    Provider.provideList (ps1 ++ rest) conv = Provider.provideList rest conv := by
  induction ps1 with
  | nil => rfl
  | cons q qs ih =>
      have hq : q.provide = .ok PyVal.none := h q (List.mem_cons_self q qs)
      have hqs : ∀ r ∈ qs, r.provide = .ok PyVal.none :=
        fun r hr => h r (List.mem_cons_of_mem q hr)
      simp [Provider.provideList, hq, ih hqs]

theorem provideList_all_absent (ps : List Provider)
    (h : ∀ q ∈ ps, q.provide = .ok PyVal.none) (conv : Option ConvFunc) :
    Provider.provideList ps conv = .ok PyVal.none := by
  have happ := provideList_append_absent ps h [] conv
  simpa using happ

theorem envLookup_append_absent (pre : List String) (env : AList PyVal)
    (h : ∀ m ∈ pre, alistGetOpt m env = Option.none) (rest : List String) :
    envLookup (pre ++ rest) env = envLookup rest env := by
  induction pre with
  | nil => rfl
  | cons n ns ih =>
      have hn : alistGetOpt n env = Option.none := h n (List.mem_cons_self n ns)
      have hns : ∀ m ∈ ns, alistGetOpt m env = Option.none :=
        fun m hm => h m (List.mem_cons_of_mem n hm)
      simp [envLookup, hn, ih hns]

end Botocore

namespace Botocore

/-! ## The claims -/

/-- C1: `ChainProvider.provide` consults its providers in order; the first
whose result is not `None` wins, its value is passed through
`_convert_type` (the conversion function when given, the identity
otherwise) and returned, with the later providers never consulted (the
result does not mention them); when every provider returns `None` the
chain returns `None` and the conversion function is never applied (the
result does not mention it). -/
theorem chainProvider_provide_spec :
    (∀ (ps1 : List Provider) (p : Provider) (ps2 : List Provider)
       (conv : Option ConvFunc) (v : PyVal),
       (∀ q ∈ ps1, q.provide = .ok PyVal.none) →
       p.provide = .ok v → v ≠ PyVal.none →
       (Provider.chain (ps1 ++ p :: ps2) conv).provide = convert_type conv v) ∧
    (∀ (ps : List Provider) (conv : Option ConvFunc),
       (∀ q ∈ ps, q.provide = .ok PyVal.none) →
       (Provider.chain ps conv).provide = .ok PyVal.none) := by
  constructor
  · intro ps1 p ps2 conv v habs hp hv
    show Provider.provideList (ps1 ++ p :: ps2) conv = convert_type conv v
    rw [provideList_append_absent ps1 habs]
    simp [Provider.provideList, hp, hv]
  · intro ps conv h
    exact provideList_all_absent ps h conv

/-- Witness for C1 at concrete chains: a chain whose first provider yields
`None` and whose second yields `"v"` resolves to `"v"` without consulting
the third, and a chain of all-`None` providers with a conversion function
resolves to `None`. -/
theorem chainProvider_provide_spec_witness :
    (Provider.chain [Provider.constant PyVal.none,
        Provider.constant (PyVal.str "v"),
        Provider.constant (PyVal.str "w")] Option.none).provide =
      .ok (PyVal.str "v") ∧
    (Provider.chain [Provider.constant PyVal.none] (some pyIntFn)).provide =
      .ok PyVal.none := by
  constructor
  · have h := chainProvider_provide_spec.1 [Provider.constant PyVal.none]
      (Provider.constant (PyVal.str "v")) [Provider.constant (PyVal.str "w")]
      Option.none (PyVal.str "v")
      (by intro q hq; rw [List.mem_singleton] at hq; subst hq; rfl)
      rfl (by simp)
    simpa [convert_type] using h
  · exact chainProvider_provide_spec.2 [Provider.constant PyVal.none]
      (some pyIntFn)
      (by intro q hq; rw [List.mem_singleton] at hq; subst hq; rfl)

/-- C2: `get_config_variable` returns the override value unconditionally
whenever the name is a key of the override map (falsy values included);
otherwise `None` when the name has no mapped provider; otherwise exactly
the mapped provider's `provide()`. -/
theorem get_config_variable_spec (store : ConfigValueStore) (name : String) :
    (∀ v : PyVal, alistGetOpt name store.overrides = some v →
       store.get_config_variable name = .ok v) ∧
    (alistGetOpt name store.overrides = Option.none →
       alistGetOpt name store.mapping = Option.none →
       store.get_config_variable name = .ok PyVal.none) ∧
    (∀ p : Provider, alistGetOpt name store.overrides = Option.none →
       alistGetOpt name store.mapping = some p →
       store.get_config_variable name = p.provide) := by
  refine ⟨?hov, ?hnone, ?hmap⟩
  · intro v hv
    simp [ConfigValueStore.get_config_variable, hv]
  · intro h1 h2
    simp [ConfigValueStore.get_config_variable, h1, h2]
  · intro p h1 h2
    simp [ConfigValueStore.get_config_variable, h1, h2]

/-- Witness for C2 at concrete stores: an override bound to the empty
string wins over a mapped provider; an unmapped name yields `None`; a
mapped name without an override delegates to its provider. -/
theorem get_config_variable_spec_witness :
    (ConfigValueStore.get_config_variable
       ⟨[("x", PyVal.str "")], [("x", Provider.constant (PyVal.str "p"))]⟩ "x" =
       .ok (PyVal.str "")) ∧
    (ConfigValueStore.get_config_variable ⟨[], []⟩ "y" = .ok PyVal.none) ∧
    (ConfigValueStore.get_config_variable
       ⟨[], [("z", Provider.constant (PyVal.int 3))]⟩ "z" =
       .ok (PyVal.int 3)) := by
  refine ⟨?h1, ?h2, ?h3⟩
  · exact (get_config_variable_spec
      ⟨[("x", PyVal.str "")], [("x", Provider.constant (PyVal.str "p"))]⟩
      "x").1 (PyVal.str "") (by simp [alistGetOpt])
  · exact (get_config_variable_spec ⟨[], []⟩ "y").2.1 rfl rfl
  · exact (get_config_variable_spec
      ⟨[], [("z", Provider.constant (PyVal.int 3))]⟩ "z").2.2
      (Provider.constant (PyVal.int 3)) rfl (by simp [alistGetOpt])

/-- C5: setting an override and then reading the same name returns exactly
the value that was set, whatever provider (if any) the mapping binds to
that name; the value is arbitrary, so falsy values such as the empty
string are returned verbatim as well. -/
theorem set_then_get_config_variable (store : ConfigValueStore)
    (name : String) (value : PyVal) :
    (store.set_config_variable name value).get_config_variable name =
      .ok value := by
  simp [ConfigValueStore.set_config_variable,
    ConfigValueStore.get_config_variable, alistGetOpt_set_self]

end Botocore

namespace Botocore

/-- C3: `create_config_chain` returns a `ChainProvider` over exactly the
stages whose parameters were supplied, in the fixed order instance
variable, environment, scoped config, constant default — no other stages
and no permutation — together with the given conversion function. -/
theorem create_config_chain_spec (f : ConfigChainFactory)
    (instance_name : Option String) (env_var_names : Option Names)
    (config_property_name : Option String) (default : PyVal)
    (conversion_func : Option ConvFunc) :
    f.create_config_chain instance_name env_var_names config_property_name
        default conversion_func =
      Provider.chain
        ((match instance_name with
          | some n => [Provider.instanceVar n f.session]
          | Option.none => []) ++
         (match env_var_names with
          | some ns => [Provider.environment ns f.environ]
          | Option.none => []) ++
         (match config_property_name with
          | some c => [Provider.scopedConfig c f.session]
          | Option.none => []) ++
         (if default ≠ PyVal.none then [Provider.constant default] else []))
        conversion_func := by
  cases instance_name <;> cases env_var_names <;>
    cases config_property_name <;> by_cases hd : default = PyVal.none <;>
    simp [ConfigChainFactory.create_config_chain, hd]

/-- C4: `EnvironmentProvider.provide` returns the environment value of the
first listed name that is a key of the environment map — key membership,
not truthiness, so a name bound to the empty string wins and its empty
string is returned — and returns `None` when no listed name is a key. -/
theorem environmentProvider_provide_spec (names : Names) (env : AList PyVal) :
    (∀ (pre : List String) (n : String) (post : List String) (v : PyVal),
       names.toList = pre ++ n :: post →
       (∀ m ∈ pre, alistGetOpt m env = Option.none) →
       alistGetOpt n env = some v →
       (Provider.environment names env).provide = .ok v) ∧
    ((∀ n ∈ names.toList, alistGetOpt n env = Option.none) →
       (Provider.environment names env).provide = .ok PyVal.none) := by
  constructor
  · intro pre n post v hsplit hpre hn
    show Except.ok (envLookup names.toList env) = .ok v
    rw [hsplit, envLookup_append_absent pre env hpre]
    simp [envLookup, hn]
  · intro h
    show Except.ok (envLookup names.toList env) = .ok PyVal.none
    have : envLookup (names.toList ++ []) env = envLookup [] env :=
      envLookup_append_absent names.toList env h []
    simpa using this

/-- Witness for C4 at a concrete provider: with names `[A, B]` and an
environment binding only `B` (to the empty string), the provider returns
that empty string; with an environment binding neither, it returns
`None`. -/
theorem environmentProvider_provide_spec_witness :
    (Provider.environment (Names.list ["A", "B"])
        [("B", PyVal.str "")]).provide = .ok (PyVal.str "") ∧
    (Provider.environment (Names.list ["A", "B"])
        [("C", PyVal.str "c")]).provide = .ok PyVal.none := by
  constructor
  · exact (environmentProvider_provide_spec (Names.list ["A", "B"])
      [("B", PyVal.str "")]).1 ["A"] "B" [] (PyVal.str "") rfl
      (by intro m hm; rw [List.mem_singleton] at hm; subst hm; rfl)
      (by simp [alistGetOpt])
  · exact (environmentProvider_provide_spec (Names.list ["A", "B"])
      [("C", PyVal.str "c")]).2
      (by
        intro n hn
        simp only [Names.toList, List.mem_cons, List.not_mem_nil, or_false]
          at hn
        rcases hn with hn | hn <;> subst hn <;> rfl)

/-- C6: when the mapping binds a name to a chain whose first non-`None`
provider yields a value that the conversion function rejects, the
conversion error propagates unmodified through `ChainProvider.provide`
and `get_config_variable`; it is neither swallowed nor turned into
`None`. -/
theorem conversion_error_propagates (store : ConfigValueStore) (name : String)
    (ps1 : List Provider) (p : Provider) (ps2 : List Provider)
    (f : ConvFunc) (v : PyVal) (e : PyErr)
    (hov : alistGetOpt name store.overrides = Option.none)
    (hmap : alistGetOpt name store.mapping =
        some (Provider.chain (ps1 ++ p :: ps2) (some f)))
    (habs : ∀ q ∈ ps1, q.provide = .ok PyVal.none)
    (hp : p.provide = .ok v) (hv : v ≠ PyVal.none)
    (hf : f v = .error e) :
    store.get_config_variable name = .error e := by
  have hchain : (Provider.chain (ps1 ++ p :: ps2) (some f)).provide =
      .error e := by
    show Provider.provideList (ps1 ++ p :: ps2) (some f) = .error e
    rw [provideList_append_absent ps1 habs]
    simp [Provider.provideList, hp, hv, convert_type, hf]
  simp [ConfigValueStore.get_config_variable, hov, hmap, hchain]

/-- Witness for C6 at a concrete store: the mapped chain's winning value
is the non-numeric string `"abc"` and the conversion function is the
integer conversion, so `get_config_variable` surfaces the conversion
error. -/
theorem conversion_error_propagates_witness :
    ConfigValueStore.get_config_variable
      ⟨[], [("timeout", Provider.chain
          [Provider.constant PyVal.none, Provider.constant (PyVal.str "abc")]
          (some pyIntFn))]⟩ "timeout" =
      .error "invalid literal for int: abc" := by
  exact conversion_error_propagates
    ⟨[], [("timeout", Provider.chain
        [Provider.constant PyVal.none, Provider.constant (PyVal.str "abc")]
        (some pyIntFn))]⟩ "timeout"
    [Provider.constant PyVal.none] (Provider.constant (PyVal.str "abc")) []
    pyIntFn (PyVal.str "abc") "invalid literal for int: abc"
    rfl (by simp [alistGetOpt])
    (by intro q hq; rw [List.mem_singleton] at hq; subst hq; rfl)
    rfl (by simp) rfl

end Botocore

namespace Botocore

/-- C7: a `default` equal to the `None` sentinel fails the factory's
`if default is not None` test, so the resulting chain contains no
`ConstantProvider` stage — indistinguishable from supplying no default. -/
theorem create_config_chain_default_none_no_constant (f : ConfigChainFactory)
    (instance_name : Option String) (env_var_names : Option Names)
    (config_property_name : Option String) (conversion_func : Option ConvFunc) :
    (chainProviders (f.create_config_chain instance_name env_var_names
        config_property_name PyVal.none conversion_func)).all
      (fun p => !(isConstantProvider p)) = true := by
  cases instance_name <;> cases env_var_names <;> cases config_property_name <;>
    simp [ConfigChainFactory.create_config_chain, chainProviders,
      isConstantProvider]

/-- C8: `set_config_provider` binds the given provider to the given name
in the mapping, leaves every other name's binding unchanged, and leaves
the override map untouched. -/
theorem set_config_provider_spec (store : ConfigValueStore) (name : String)
    (provider : Provider) :
    (alistGetOpt name (store.set_config_provider name provider).mapping =
        some provider) ∧
    (∀ other : String, other ≠ name →
       alistGetOpt other (store.set_config_provider name provider).mapping =
         alistGetOpt other store.mapping) ∧
    ((store.set_config_provider name provider).overrides = store.overrides) := by
  refine ⟨?hself, ?hother, rfl⟩
  · exact alistGetOpt_set_self name provider store.mapping
  · intro other hne
    exact alistGetOpt_set_other name other provider store.mapping hne

/-- Witness for C8 at a concrete store: rebinding `a` makes `a` resolve to
the new provider, leaves `b`'s binding alone and leaves the override map
alone. -/
theorem set_config_provider_spec_witness :
    (alistGetOpt "a" (ConfigValueStore.set_config_provider
        ⟨[("ov", PyVal.str "o")],
         [("a", Provider.constant (PyVal.int 1)),
          ("b", Provider.constant (PyVal.int 2))]⟩
        "a" (Provider.constant (PyVal.int 9))).mapping =
      some (Provider.constant (PyVal.int 9))) ∧
    (alistGetOpt "b" (ConfigValueStore.set_config_provider
        ⟨[("ov", PyVal.str "o")],
         [("a", Provider.constant (PyVal.int 1)),
          ("b", Provider.constant (PyVal.int 2))]⟩
        "a" (Provider.constant (PyVal.int 9))).mapping =
      alistGetOpt "b" [("a", Provider.constant (PyVal.int 1)),
          ("b", Provider.constant (PyVal.int 2))]) ∧
    ((ConfigValueStore.set_config_provider
        ⟨[("ov", PyVal.str "o")],
         [("a", Provider.constant (PyVal.int 1)),
          ("b", Provider.constant (PyVal.int 2))]⟩
        "a" (Provider.constant (PyVal.int 9))).overrides =
      [("ov", PyVal.str "o")]) := by
  refine ⟨?h1, ?h2, ?h3⟩
  · exact (set_config_provider_spec
      ⟨[("ov", PyVal.str "o")],
       [("a", Provider.constant (PyVal.int 1)),
        ("b", Provider.constant (PyVal.int 2))]⟩
      "a" (Provider.constant (PyVal.int 9))).1
  · exact (set_config_provider_spec
      ⟨[("ov", PyVal.str "o")],
       [("a", Provider.constant (PyVal.int 1)),
        ("b", Provider.constant (PyVal.int 2))]⟩
      "a" (Provider.constant (PyVal.int 9))).2.1 "b" (by decide)
  · exact (set_config_provider_spec
      ⟨[("ov", PyVal.str "o")],
       [("a", Provider.constant (PyVal.int 1)),
        ("b", Provider.constant (PyVal.int 2))]⟩
      "a" (Provider.constant (PyVal.int 9))).2.2

/-- C9: `clear_config_variable` removes the override for the name (so the
next read falls through to the provider mapping), changes no other
override and no mapping entry, and is a state-preserving no-op when no
override exists for the name. -/
theorem clear_config_variable_spec (store : ConfigValueStore) (name : String) :
    (alistGetOpt name (store.clear_config_variable name).overrides =
        Option.none) ∧
    ((store.clear_config_variable name).mapping = store.mapping) ∧
    (∀ other : String, other ≠ name →
       alistGetOpt other (store.clear_config_variable name).overrides =
         alistGetOpt other store.overrides) ∧
    ((store.clear_config_variable name).get_config_variable name =
       match alistGetOpt name store.mapping with
       | some p => p.provide
       | Option.none => .ok PyVal.none) ∧
    (alistGetOpt name store.overrides = Option.none →
       store.clear_config_variable name = store) := by
  refine ⟨?hgone, rfl, ?hother, ?hfall, ?hnoop⟩
  · exact alistGetOpt_pop_self name store.overrides
  · intro other hne
    exact alistGetOpt_pop_other name other store.overrides hne
  · rcases hm : alistGetOpt name store.mapping with _ | p <;>
      simp [ConfigValueStore.clear_config_variable,
        ConfigValueStore.get_config_variable, alistGetOpt_pop_self, hm]
  · intro h
    simp [ConfigValueStore.clear_config_variable,
      alistPop_of_absent name store.overrides h]

/-- Witness for C9 at concrete stores: clearing an existing override for
`x` makes the read fall through to the mapped provider, and clearing `x`
on a store whose only override is for `y` changes nothing. -/
theorem clear_config_variable_spec_witness :
    (alistGetOpt "x" (ConfigValueStore.clear_config_variable
        ⟨[("x", PyVal.str "o")], [("x", Provider.constant (PyVal.int 1))]⟩
        "x").overrides = Option.none) ∧
    (alistGetOpt "y" (ConfigValueStore.clear_config_variable
        ⟨[("x", PyVal.str "o"), ("y", PyVal.str "keep")],
         []⟩ "x").overrides =
      alistGetOpt "y" [("x", PyVal.str "o"), ("y", PyVal.str "keep")]) ∧
    (ConfigValueStore.clear_config_variable
        ⟨[("y", PyVal.str "o")], []⟩ "x" = ⟨[("y", PyVal.str "o")], []⟩) := by
  refine ⟨?h1, ?h2, ?h3⟩
  · exact (clear_config_variable_spec
      ⟨[("x", PyVal.str "o")], [("x", Provider.constant (PyVal.int 1))]⟩
      "x").1
  · exact (clear_config_variable_spec
      ⟨[("x", PyVal.str "o"), ("y", PyVal.str "keep")], []⟩
      "x").2.2.1 "y" (by decide)
  · exact (clear_config_variable_spec
      ⟨[("y", PyVal.str "o")], []⟩ "x").2.2.2.2 (by decide)

/-- C10: `InstanceVarProvider` and `ScopedConfigProvider` look values up
with `mapping.get`, i.e. by value rather than by key membership: a key
explicitly bound to `None` yields `None` (absence), exactly as a missing
key does. -/
theorem session_none_value_indistinguishable (s : Session) (k : String) :
    ((alistGetOpt k s.instance_variables = some PyVal.none ∨
      alistGetOpt k s.instance_variables = Option.none) →
       (Provider.instanceVar k s).provide = .ok PyVal.none) ∧
    ((alistGetOpt k s.get_scoped_config = some PyVal.none ∨
      alistGetOpt k s.get_scoped_config = Option.none) →
       (Provider.scopedConfig k s).provide = .ok PyVal.none) := by
  constructor
  · intro h
    show Except.ok (alistGet k s.instance_variables) = .ok PyVal.none
    rcases h with h | h <;> simp [alistGet, h]
  · intro h
    show Except.ok (alistGet k s.get_scoped_config) = .ok PyVal.none
    rcases h with h | h <;> simp [alistGet, h]

/-- Witness for C10 at a concrete session binding the looked-up key
explicitly to `None` in the instance variables and the scoped config:
both providers report absence. -/
theorem session_none_value_indistinguishable_witness :
    (Provider.instanceVar "k"
        ⟨[("k", PyVal.none)], [("k", PyVal.none)]⟩).provide =
      .ok PyVal.none ∧
    (Provider.scopedConfig "k"
        ⟨[("k", PyVal.none)], [("k", PyVal.none)]⟩).provide =
      .ok PyVal.none := by
  constructor
  · exact (session_none_value_indistinguishable
      ⟨[("k", PyVal.none)], [("k", PyVal.none)]⟩ "k").1 (Or.inl (by decide))
  · exact (session_none_value_indistinguishable
      ⟨[("k", PyVal.none)], [("k", PyVal.none)]⟩ "k").2 (Or.inl (by decide))

end Botocore
